import Mathlib

/-!
Verification of the resilient request-dispatch layer of the seller-bot
repository (python-core): the LLM orchestrator with its circuit breaker and
cache (`llm/orchestrator.py`, `llm/cache.py`), the token-bucket rate limiter
(`llm/rate_limiter.py`) and the ElevenLabs TTS adapter with its worker queue,
retry loop and audio cache (`adapters/elevenlabs_adapter.py`).

Python strings are modelled as `List Char`, wall-clock / monotonic times as
`ℚ` (the rate limiter additionally truncates wall-clock time to whole `ℤ`
seconds, exactly as `int(time.time())` does), fallible code as `Except`, and
the asyncio worker pool as an explicit step relation on a pool state.
-/

/-- Python strings are modelled as lists of characters. -/
abbrev Str := List Char

/-! ## `sanitize_output` (llm/orchestrator.py:27-34)

```python
def sanitize_output(output: str) -> str:
    if not output:
        return ""
    output = output[:4096]
    return output.strip()
```
-/

/-- The ASCII whitespace characters removed by Python's `str.strip()`
(`str.strip()` also removes some non-ASCII unicode spaces; the embedding
restricts itself to characters where the two notions agree). -/
def pyIsSpace (c : Char) : Bool :=
  c = ' ' || c = '\t' || c = '\n' || c = '\r' || c = '\x0b' || c = '\x0c'

/-- Python `str.strip()`: drop leading and trailing whitespace. -/
def pyStrip (s : Str) : Str :=
  ((s.dropWhile pyIsSpace).reverse.dropWhile pyIsSpace).reverse

/-- Function `sanitize_output` (llm/orchestrator.py:27-34): empty (falsy) input gives
`""`; otherwise the first 4096 characters (`output[:4096]`) are kept and the
result is stripped. -/
def sanitize_output (s : Str) : Str :=
  if s = [] then [] else pyStrip (s.take 4096)

/-! Basic facts about `pyStrip`. -/

theorem head_dropWhile_not {p : Char → Bool} :
    ∀ (l : Str) (c : Char), (l.dropWhile p).head? = some c → p c = false := by
  intro l c h
  induction l with
  | nil => simp [List.dropWhile] at h
  | cons a l ih =>
    rw [List.dropWhile_cons] at h
    by_cases hp : p a
    · rw [if_pos hp] at h
      exact ih h
    · rw [if_neg hp] at h
      simp at h
      subst h
      simpa using hp

theorem pyStrip_length_le (s : Str) : (pyStrip s).length ≤ s.length := by
  unfold pyStrip
  calc ((s.dropWhile pyIsSpace).reverse.dropWhile pyIsSpace).reverse.length
      = ((s.dropWhile pyIsSpace).reverse.dropWhile pyIsSpace).length := by simp
    _ ≤ (s.dropWhile pyIsSpace).reverse.length := (List.dropWhile_sublist _).length_le
    _ = (s.dropWhile pyIsSpace).length := by simp
    _ ≤ s.length := (List.dropWhile_sublist _).length_le

theorem getLast?_of_suffix {l1 l2 : Str} (h : l1.IsSuffix l2) (h1 : l1 ≠ []) :
    l1.getLast? = l2.getLast? := by
  obtain ⟨t, rfl⟩ := h
  rw [List.getLast?_append, Option.or_of_isSome]
  simpa [List.getLast?_isSome] using h1

theorem pyStrip_last (s : Str) (c : Char) (h : (pyStrip s).getLast? = some c) :
    pyIsSpace c = false := by
  unfold pyStrip at h
  rw [List.getLast?_reverse] at h
  exact head_dropWhile_not _ _ h

theorem pyStrip_head (s : Str) (c : Char) (h : (pyStrip s).head? = some c) :
    pyIsSpace c = false := by
  unfold pyStrip at h
  rw [List.head?_reverse] at h
  have hne : (s.dropWhile pyIsSpace).reverse.dropWhile pyIsSpace ≠ [] := by
    intro hnil
    rw [hnil] at h
    simp at h
  rw [getLast?_of_suffix (List.dropWhile_suffix _) hne, List.getLast?_reverse] at h
  exact head_dropWhile_not _ _ h

/-! ## LLM orchestrator dispatch (llm/orchestrator.py:63-206)

`LLMOrchestrator.generate` is modelled faithfully, including the dynamic
behaviour of the Python code: `_call_provider` (lines 185-206) is an `async
def` whose body only *creates* the inner task

```python
fut = asyncio.create_task(cb.call(asyncio.wait_for(wrapper(), timeout=timeout)))
fut.provider_name = name
return fut
```

and returns the `asyncio.Task` object itself without awaiting it.  Hence in
`generate` (lines 139-183):

* `tasks` is a list of `_call_provider(...)` coroutines that run to
  completion synchronously on the first event-loop pass (their bodies contain
  no suspension point), so `asyncio.wait(tasks, return_when=FIRST_COMPLETED)`
  reports every wrapper as done, each with value the inner Task handle, and
  `pending` is empty;
* `fut.result()` inside the done-loop therefore yields a Task object, and
  `sanitize_output(result)` raises `TypeError` on `output[:4096]`
  (a Task is not subscriptable), which the `except Exception` swallows;
* the fallback branch likewise gets a Task handle back from
  `_call_provider` and its `sanitize_output` raises, so the branch ends with
  `raise RuntimeError("...")`.

The eventual outcome of each inner provider task (success or error of
`cb.call(asyncio.wait_for(wrapper()))`) is carried in the model as
`SpawnedTask.innerResult`; the source never reads it, and the model
correspondingly never consults that field.
-/

/-- A Python value reaching `sanitize_output` inside `generate`: either an
actual string or an `asyncio.Task` handle. -/
inductive PyVal where
  | str : Str → PyVal
  | task : Nat → PyVal
deriving DecidableEq, Repr

/-- Exceptions surfaced by the modelled orchestrator code paths. -/
inductive PyExn where
  /-- Python `TypeError`: subscripting a non-string (a Task) in `sanitize_output`. -/
  | typeError
  /-- Python `RuntimeError("Все LLM-провайдеры недоступны")` — total outage
  (llm/orchestrator.py:183). -/
  | totalOutage
  /-- A typed provider / timeout / breaker error inside an inner task. -/
  | providerError
deriving DecidableEq, Repr

/-- An inner provider task as spawned by `_call_provider`: the value the
caller receives (`handle`, the Task object) and what awaiting the Task would
eventually yield (`innerResult`, the outcome of
`cb.call(asyncio.wait_for(wrapper(), timeout))`). -/
structure SpawnedTask where
  handle : PyVal
  innerResult : Except PyExn Str
deriving Repr

/-- Method `_call_provider` (llm/orchestrator.py:185-206): create the inner task and
return the Task object itself (it is never awaited by the caller). -/
def call_provider (taskId : Nat) (outcome : Except PyExn Str) : SpawnedTask :=
  { handle := PyVal.task taskId, innerResult := outcome }

/-- Behaviour of `sanitize_output` applied to a dynamic value inside `generate`:
a string follows the string semantics; `output[:4096]` on a Task raises
`TypeError`. -/
def sanitize_output_dyn : PyVal → Except PyExn Str
  | PyVal.str s => Except.ok (sanitize_output s)
  | PyVal.task _ => Except.error PyExn.typeError

/-- Behaviour of the two configured providers (llm/orchestrator.py:65-68:
`{"logic": ..., "fallback": ...}`): the eventual outcome each inner task
would produce. -/
structure ProvEnv where
  logicOutcome : Except PyExn Str
  fallbackOutcome : Except PyExn Str
deriving Repr

/-- Cache key for `_cache_key` (llm/orchestrator.py:81-84):
`f"llm:{task_type}:{sha256(task_type+prompt)}:{sha256(json(context))}"`.
The key is a deterministic function of `(task_type, prompt,
canonical-json(context))`; per the spec the hash is collision-resistant, so
it is embedded as the triple itself. -/
structure CKey where
  task_type : String
  prompt : String
  ctx : String
deriving DecidableEq, Repr

/-- The orchestrator-side cache contents (the in-module `RedisCache` stub,
llm/orchestrator.py:233-236, is a plain dict: `get` is lookup, `set` is
insert/overwrite; entries carry no TTL). -/
abbrev OrchCache := List (CKey × Str)

def cacheGet (c : OrchCache) (k : CKey) : Option Str :=
  (c.find? (fun e => e.1 = k)).map (·.2)

def cacheSet (c : OrchCache) (k : CKey) (v : Str) : OrchCache :=
  (k, v) :: c.filter (fun e => ¬(e.1 = k))

def cacheSetOpt (c : Option OrchCache) (k : CKey) (v : Str) : Option OrchCache :=
  c.map (fun c => cacheSet c k v)

/-- Result of one `generate` call: the returned value or raised exception,
the cache contents afterwards, and which providers' `generate` coroutines
were started (inner tasks spawned). -/
structure GenOutcome where
  result : Except PyExn Str
  cache : Option OrchCache
  invoked : List String
deriving Repr

/-- The `for fut in done:` loop (llm/orchestrator.py:157-169): take
`fut.result()`, sanitize it, write to the cache and return; any exception is
logged and the loop moves to the next done future. -/
def doneLoop (c : Option OrchCache) (k : CKey) : List PyVal → Option (Str × Option OrchCache)
  | [] => none
  | fut :: rest =>
    match sanitize_output_dyn fut with
    | Except.ok s => some (s, cacheSetOpt c k s)
    | Except.error _ => doneLoop c k rest

/-- The cache-miss path of `generate` (llm/orchestrator.py:139-183).

The provider loop (lines 145-149) keeps exactly the `"logic"` entry whatever
`task_type` is: `"fallback"` is skipped explicitly and `"logic"` never
fails the filter `task_type != name and name != "logic"`.  So `tasks` holds
one `_call_provider` call; `asyncio.wait` reports its wrapper as done with
the inner Task handle as value, and the fallback branch then repeats the same
pattern with the `"fallback"` provider. -/
def generateMiss (env : ProvEnv) (c : Option OrchCache) (k : CKey) : GenOutcome :=
  -- step 2: tasks = [self._call_provider(cb_logic, logic_provider, ...)]
  let logicTask := call_provider 0 env.logicOutcome
  -- step 3: done = every wrapper (here: the one), pending = ∅
  let done : List PyVal := [logicTask.handle]
  -- step 4: the done-loop
  match doneLoop c k done with
  | some (s, c') => { result := Except.ok s, cache := c', invoked := ["logic"] }
  | none =>
    -- step 5: fallback — `result = await self._call_provider(...)`
    -- again binds the Task handle, not its result
    let fbTask := call_provider 1 env.fallbackOutcome
    match sanitize_output_dyn fbTask.handle with
    | Except.ok s =>
        { result := Except.ok s, cache := cacheSetOpt c k s
          invoked := ["logic", "fallback"] }
    | Except.error _ =>
        -- `raise RuntimeError("Все LLM-провайдеры недоступны")`
        { result := Except.error PyExn.totalOutage, cache := c
          invoked := ["logic", "fallback"] }

/-- Python truthiness of `cached` at llm/orchestrator.py:135 (`if cached:`):
`None` and the empty string are falsy. -/
def truthy : Option Str → Bool
  | some s => s ≠ []
  | none => false

/-- Method `LLMOrchestrator.generate` (llm/orchestrator.py:130-183). -/
def generate (env : ProvEnv) (cache : Option OrchCache)
    (task_type prompt ctx : String) : GenOutcome :=
  -- 1. cache_key = self._cache_key(task_type, prompt, context)
  let key : CKey := ⟨task_type, prompt, ctx⟩
  match cache with
  | some c =>
    let cached := cacheGet c key
    if truthy cached then
      { result := Except.ok (cached.getD []), cache := some c, invoked := [] }
    else
      generateMiss env (some c) key
  | none => generateMiss env none key

/-! ## `AsyncCircuitBreaker` (llm/orchestrator.py:36-61)

```python
class AsyncCircuitBreaker:
    def __init__(self, max_failures=2, reset_timeout=30):
        self.max_failures = max_failures
        self.reset_timeout = reset_timeout
        self.fail_count = 0
        self.last_failure = 0
        self.open = False

    async def call(self, coro):
        if self.open and (time.monotonic() - self.last_failure < self.reset_timeout):
            raise Exception("Circuit breaker is open")
        try:
            result = await coro
            self.fail_count = 0
            self.open = False
            return result
        except Exception:
            self.fail_count += 1
            self.last_failure = time.monotonic()
            if self.fail_count >= self.max_failures:
                self.open = True
            raise
```

`time.monotonic()` is modelled as a `ℚ` supplied per call; the `async with
self._lock` sections only serialize the state accesses and carry no further
semantics in a sequential trace. -/

/-- Mutable state of one `AsyncCircuitBreaker`; `is_open` models the
`self.open` attribute (`open` is a Lean keyword). -/
structure AsyncCircuitBreaker where
  max_failures : Nat
  reset_timeout : ℚ
  fail_count : Nat
  last_failure : ℚ
  is_open : Bool
deriving Repr

/-- A fresh breaker as built by `__init__`. -/
def AsyncCircuitBreaker.mk0 (max_failures : Nat) (reset_timeout : ℚ) :
    AsyncCircuitBreaker :=
  { max_failures := max_failures, reset_timeout := reset_timeout
    fail_count := 0, last_failure := 0, is_open := false }

/-- Result of one `call`: what it raised or returned, the state afterwards,
and whether the wrapped operation (`await coro`) was executed at all. -/
structure CBResult (α : Type) where
  result : Except (Option α ⊕ Unit) α
  state : AsyncCircuitBreaker
  executed : Bool

/-- Outcome of one `AsyncCircuitBreaker.call`. -/
inductive CBOutcome (ε α : Type) where
  /-- The breaker was open and inside `reset_timeout`: the call raised
  `Exception("Circuit breaker is open")` without running the operation. -/
  | circuitOpen
  /-- The operation ran and returned a value. -/
  | ok (a : α)
  /-- The operation ran and its exception was re-raised. -/
  | opError (e : ε)
deriving Repr, DecidableEq

/-- Method `AsyncCircuitBreaker.call` (llm/orchestrator.py:45-61), at monotonic time
`now`, wrapping an operation with outcome `op`.  Returns the call outcome,
the updated breaker state and whether the operation was executed. -/
def AsyncCircuitBreaker.call (b : AsyncCircuitBreaker) (now : ℚ)
    {ε α : Type} (op : Except ε α) :
    CBOutcome ε α × AsyncCircuitBreaker × Bool :=
  if b.is_open ∧ now - b.last_failure < b.reset_timeout then
    (CBOutcome.circuitOpen, b, false)
  else
    match op with
    | Except.ok a =>
        (CBOutcome.ok a, { b with fail_count := 0, is_open := false }, true)
    | Except.error e =>
        let fc := b.fail_count + 1
        (CBOutcome.opError e,
         { b with fail_count := fc, last_failure := now
                  is_open := if b.max_failures ≤ fc then true else b.is_open },
         true)

/-- Fold a sequence of failing calls (`op` always raises `e`) at the given
times through a breaker. -/
def AsyncCircuitBreaker.runFailures {ε α : Type} (b : AsyncCircuitBreaker)
    (e : ε) (ts : List ℚ) : AsyncCircuitBreaker :=
  ts.foldl (fun b t => (b.call t (Except.error e : Except ε α)).2.1) b

/-- Running `k` failing calls through a closed breaker with
`fail_count + k ≤ max_failures`: every call executes, the counter grows by
`k`, the last failure time is the last call's time, and the breaker opens
exactly when the counter reaches the threshold. -/
theorem runFailures_spec {ε α : Type} (e : ε) :
    ∀ (ts : List ℚ) (b : AsyncCircuitBreaker),
      b.is_open = false →
      b.fail_count + ts.length ≤ b.max_failures →
      (AsyncCircuitBreaker.runFailures (α := α) b e ts).max_failures = b.max_failures ∧
      (AsyncCircuitBreaker.runFailures (α := α) b e ts).reset_timeout = b.reset_timeout ∧
      (AsyncCircuitBreaker.runFailures (α := α) b e ts).fail_count
        = b.fail_count + ts.length ∧
      (∀ h : ts ≠ [],
        (AsyncCircuitBreaker.runFailures (α := α) b e ts).last_failure = ts.getLast h) ∧
      ((AsyncCircuitBreaker.runFailures (α := α) b e ts).is_open
        = decide (b.fail_count + ts.length = b.max_failures ∧ ts ≠ [])) := by
  intro ts
  induction ts with
  | nil =>
    intro b hopen _
    simp [AsyncCircuitBreaker.runFailures, hopen]
  | cons t ts ih =>
    intro b hopen hle
    have hstep :
        (AsyncCircuitBreaker.call b t (Except.error e : Except ε α)).2.1
          = { b with fail_count := b.fail_count + 1, last_failure := t
                     is_open := if b.max_failures ≤ b.fail_count + 1 then true
                                else b.is_open } := by
      simp [AsyncCircuitBreaker.call, hopen]
    have hrun : AsyncCircuitBreaker.runFailures (α := α) b e (t :: ts)
        = AsyncCircuitBreaker.runFailures (α := α)
            { b with fail_count := b.fail_count + 1, last_failure := t
                     is_open := if b.max_failures ≤ b.fail_count + 1 then true
                                else b.is_open } e ts := by
      simp only [AsyncCircuitBreaker.runFailures, List.foldl_cons, hstep]
    cases ts with
    | nil =>
      rw [hrun]
      refine ⟨rfl, rfl, rfl, fun _ => rfl, ?_⟩
      show (if b.max_failures ≤ b.fail_count + 1 then true else b.is_open) = _
      simp only [List.length_cons, List.length_nil] at hle
      by_cases hth : b.fail_count + 1 = b.max_failures
      · have : b.max_failures ≤ b.fail_count + 1 := by omega
        simp [this, hth]
      · have : ¬ b.max_failures ≤ b.fail_count + 1 := by omega
        simp [this, hopen, hth]
    | cons t2 ts2 =>
      have hnotyet : ¬ b.max_failures ≤ b.fail_count + 1 := by
        simp only [List.length_cons] at hle
        omega
      have hopen2 : (if b.max_failures ≤ b.fail_count + 1 then true else b.is_open)
          = false := by
        simp [hnotyet, hopen]
      have hle2 : b.fail_count + 1 + (t2 :: ts2).length ≤ b.max_failures := by
        simp only [List.length_cons] at hle ⊢
        omega
      obtain ⟨h1, h2, h3, h4, h5⟩ := ih
        { b with fail_count := b.fail_count + 1, last_failure := t
                 is_open := if b.max_failures ≤ b.fail_count + 1 then true
                            else b.is_open } hopen2 hle2
      rw [hrun]
      refine ⟨h1, h2, ?_, ?_, ?_⟩
      · rw [h3]
        simp only [List.length_cons]
        omega
      · intro _
        rw [h4 (by simp)]
        exact (List.getLast_cons (by simp : (t2 :: ts2 : List ℚ) ≠ [])).symm
      · rw [h5]
        have hlen : b.fail_count + 1 + (t2 :: ts2).length
            = b.fail_count + (t :: t2 :: ts2).length := by
          simp only [List.length_cons]
          omega
        simp only [hlen]
        simp

/-! ## `TokenBucketRateLimiter.check` (llm/rate_limiter.py:58-89)

```python
now = int(time.time())
tokens = await self.redis.get(tokens_key)
last_refill = await self.redis.get(refill_key)
tokens = int(tokens) if tokens is not None else bucket_size
last_refill = int(last_refill) if last_refill is not None else now

elapsed = now - last_refill
tokens_to_add = int(elapsed * refill_rate)
if tokens_to_add > 0:
    tokens = min(tokens + tokens_to_add, bucket_size)
    last_refill = now

if tokens > 0:
    tokens -= 1
    ... setex tokens, last_refill ...; return
else:
    ... setex tokens, last_refill ...; raise RateLimitExceeded
```

`now` is truncated to whole seconds by `int(time.time())`; `int(x)` on a
float truncates toward zero. -/

/-- Python `int(x)` on a rational: truncation toward zero. -/
def pyInt (q : ℚ) : ℤ :=
  if 0 ≤ q then ⌊q⌋ else ⌈q⌉

/-- The two Redis keys of one bucket: current token count and last-refill
timestamp (both stored as integers). `none` models absent keys (a fresh
bucket, or one whose TTL expired). -/
structure BucketState where
  tokens : ℤ
  last_refill : ℤ
deriving DecidableEq, Repr

namespace TokenBucketRateLimiter

/-- One `check` call against bucket parameters `(bucket_size, refill_rate)`
at wall-clock second `now`: returns whether the call was admitted (`true`) or
raised `RateLimitExceeded` (`false`), and the state written back. -/
def check (bucket_size : ℕ) (refill_rate : ℚ) (st : Option BucketState)
    (now : ℤ) : Bool × BucketState :=
  let tokens : ℤ := (st.map (·.tokens)).getD bucket_size
  let last_refill : ℤ := (st.map (·.last_refill)).getD now
  let elapsed : ℤ := now - last_refill
  let tokens_to_add : ℤ := pyInt ((elapsed : ℚ) * refill_rate)
  let tokens' := if 0 < tokens_to_add then min (tokens + tokens_to_add) bucket_size
                 else tokens
  let last_refill' := if 0 < tokens_to_add then now else last_refill
  if 0 < tokens' then (true, ⟨tokens' - 1, last_refill'⟩)
  else (false, ⟨tokens', last_refill'⟩)

/-- Run of `n` consecutive `check` calls, all at the same wall-clock second `now`,
returning the final state and whether every call was admitted. -/
def checkRun (bucket_size : ℕ) (refill_rate : ℚ) (st : Option BucketState)
    (now : ℤ) : ℕ → Option BucketState × Bool
  | 0 => (st, true)
  | n + 1 =>
    let (st', ok) := checkRun bucket_size refill_rate st now n
    let (ok2, st2) := check bucket_size refill_rate st' now
    (some st2, ok && ok2)

/-- A repeat call in the same second just decrements (or rejects). -/
theorem check_same_second (C : ℕ) (r : ℚ) (tk now : ℤ) :
    check C r (some ⟨tk, now⟩) now
      = if 0 < tk then (true, ⟨tk - 1, now⟩) else (false, ⟨tk, now⟩) := by
  simp [check, pyInt]

theorem check_fresh (C : ℕ) (r : ℚ) (now : ℤ) :
    check C r none now
      = if 0 < (C : ℤ) then (true, ⟨(C : ℤ) - 1, now⟩) else (false, ⟨(C : ℤ), now⟩) := by
  simp [check, pyInt]

/-- After `j` back-to-back calls (`1 ≤ j ≤ C`) on a fresh bucket, all in the
same second, every call was admitted and the stored state is `(C - j, now)`. -/
theorem checkRun_fresh (C : ℕ) (r : ℚ) (now : ℤ) :
    ∀ j : ℕ, 1 ≤ j → j ≤ C →
      checkRun C r none now j = (some ⟨(C : ℤ) - j, now⟩, true) := by
  intro j
  induction j with
  | zero => omega
  | succ j ih =>
    intro _ hle
    by_cases hj : 1 ≤ j
    · have hrec := ih hj (by omega)
      have hpos : (0 : ℤ) < (C : ℤ) - j := by
        have : (j : ℤ) + 1 ≤ (C : ℤ) := by exact_mod_cast hle
        omega
      simp only [checkRun, hrec, check_same_second, if_pos hpos]
      refine Prod.ext ?_ rfl
      simp only [Option.some.injEq, BucketState.mk.injEq]
      refine ⟨?_, trivial⟩
      push_cast
      omega
    · have hj0 : j = 0 := by omega
      subst hj0
      have hpos : (0 : ℤ) < (C : ℤ) := by exact_mod_cast hle
      simp only [checkRun, check_fresh, if_pos hpos]
      norm_num

end TokenBucketRateLimiter

/-! ## `ElevenLabsAdapter._process_tts_request` retry loop
(adapters/elevenlabs_adapter.py:367-451)

```python
for attempt in range(self.max_retries):
    try:
        ... POST ...
        if response.status == 200:
            audio_data = await response.read(); ...cache...; return audio_data
        error_text = await response.text()
        if response.status == 429:
            wait_time = 2 ** attempt; await asyncio.sleep(wait_time); continue
        elif response.status >= 500:
            wait_time = 2 ** attempt; await asyncio.sleep(wait_time); continue
        else:
            raise ElevenLabsError(...)            # immediate, no retry
    except asyncio.TimeoutError:
        wait_time = 2 ** attempt
        if attempt < self.max_retries - 1:
            await asyncio.sleep(wait_time); continue
        raise ElevenLabsError("Request timeout after all retries")
    except aiohttp.ClientError as e:
        wait_time = 2 ** attempt
        if attempt < self.max_retries - 1:
            await asyncio.sleep(wait_time); continue
        raise ElevenLabsError(f"Client error: ...")
raise ElevenLabsError("All retry attempts failed")
```

The outcome of each attempt's HTTP interaction is given by a function
`out : ℕ → HttpAttempt`; an HTTP response is modelled with its status code,
its body, and any `Retry-After` header it carries (the source never reads
that header). -/

/-- What one attempt's HTTP interaction produced. -/
inductive HttpAttempt where
  /-- A completed HTTP response: status code, `Retry-After` header (if the
  server sent one, in seconds) and body bytes. -/
  | response (status : ℕ) (retryAfter : Option ℕ) (body : Str)
  /-- Exception `asyncio.TimeoutError` -/
  | timeout
  /-- Exception `aiohttp.ClientError` -/
  | clientError
deriving DecidableEq, Repr

/-- Errors `_process_tts_request` can raise (`ElevenLabsError` variants,
distinguished by their message / status code). -/
inductive TtsErr where
  /-- Error `ElevenLabsError(f"API error: ...", status_code=...)` — non-retryable
  status. -/
  | apiError (status : ℕ)
  /-- Error `ElevenLabsError("Request timeout after all retries")` -/
  | timeoutExhausted
  /-- Error `ElevenLabsError(f"Client error: ...")` -/
  | clientExhausted
  /-- Error `ElevenLabsError("All retry attempts failed")` -/
  | allRetriesFailed
deriving DecidableEq, Repr

/-- The `for attempt in range(max_retries)` loop, with `fuel` iterations left
(`fuel = max_retries - attempt` at every call).  Returns the result and the
list of back-off sleeps performed (`2 ** attempt`, in seconds), in order. -/
def ttsLoop (max_retries : ℕ) (out : ℕ → HttpAttempt) :
    ℕ → ℕ → Except TtsErr Str × List ℕ
  | 0, _ => (Except.error TtsErr.allRetriesFailed, [])
  | fuel + 1, attempt =>
    match out attempt with
    | HttpAttempt.response status _ body =>
      if status = 200 then (Except.ok body, [])
      else if status = 429 ∨ 500 ≤ status then
        -- wait_time = 2 ** attempt; sleep; continue
        let (r, ws) := ttsLoop max_retries out fuel (attempt + 1)
        (r, 2 ^ attempt :: ws)
      else
        (Except.error (TtsErr.apiError status), [])
    | HttpAttempt.timeout =>
      if attempt < max_retries - 1 then
        let (r, ws) := ttsLoop max_retries out fuel (attempt + 1)
        (r, 2 ^ attempt :: ws)
      else
        (Except.error TtsErr.timeoutExhausted, [])
    | HttpAttempt.clientError =>
      if attempt < max_retries - 1 then
        let (r, ws) := ttsLoop max_retries out fuel (attempt + 1)
        (r, 2 ^ attempt :: ws)
      else
        (Except.error TtsErr.clientExhausted, [])

/-- Method `_process_tts_request` with attempt outcomes `out`. -/
def process_tts_request (max_retries : ℕ) (out : ℕ → HttpAttempt) :
    Except TtsErr Str × List ℕ :=
  ttsLoop max_retries out max_retries 0

/-! ## ElevenLabs worker pool (adapters/elevenlabs_adapter.py:217-333)

`start_workers` spawns `max_workers` tasks running `_worker`; each worker
repeatedly dequeues one `(future, request)` pair and awaits
`_process_tts_request` before looping, so a worker has at most one job in
flight.  `synthesize_speech` (lines 327-333) decides per submission:

```python
if self.is_running and not self.request_queue.empty():
    future = asyncio.Future()
    await self.request_queue.put((future, request))
    response = await future
else:
    response = await self._process_tts_request(request)
```

The `else` branch — taken in particular whenever the queue is momentarily
empty — runs `_process_tts_request` directly inside the submitting caller's
task, without touching the worker pool.  The pool is modelled as a labelled
transition system; `workers` carries one busy-flag per spawned worker task. -/

/-- State of the adapter's queue/worker machinery. -/
structure PoolState where
  /-- Flag `self.is_running` -/
  is_running : Bool
  /-- Contents of `self.request_queue` (job ids). -/
  queue : List ℕ
  /-- One flag per worker task: `true` while that worker is awaiting
  `_process_tts_request` for a dequeued job. -/
  workers : List Bool
  /-- Number of submitter tasks currently awaiting `_process_tts_request`
  through the direct-execution branch of `synthesize_speech`. -/
  direct : ℕ
deriving DecidableEq, Repr

/-- Jobs executing (`_process_tts_request` in flight) at an instant: busy
workers plus direct executions in submitter tasks. -/
def PoolState.executing (s : PoolState) : ℕ :=
  s.workers.count true + s.direct

/-- The adapter state right after `start_workers` with pool size `P`:
running, empty queue, all workers idle. -/
def poolInit (P : ℕ) : PoolState :=
  { is_running := true, queue := [], workers := List.replicate P false, direct := 0 }

/-- Interleaved execution steps of `synthesize_speech` callers and `_worker`
loops (adapters/elevenlabs_adapter.py:245-333). -/
inductive PoolStep : PoolState → PoolState → Prop where
  /-- A caller reaches line 328 with `is_running and not queue.empty()`:
  the job is enqueued (the caller then awaits its future). -/
  | submit_enqueue (s : PoolState) (j : ℕ) :
      s.is_running = true → s.queue ≠ [] →
      PoolStep s { s with queue := s.queue ++ [j] }
  /-- A caller reaches line 328 with the condition false (pool not running,
  or queue momentarily empty): it starts `_process_tts_request` itself. -/
  | submit_direct (s : PoolState) :
      ¬(s.is_running = true ∧ s.queue ≠ []) →
      PoolStep s { s with direct := s.direct + 1 }
  /-- A direct execution finishes. -/
  | direct_done (s : PoolState) :
      0 < s.direct →
      PoolStep s { s with direct := s.direct - 1 }
  /-- Idle worker `i` returns from `request_queue.get()` with the head job
  and starts `_process_tts_request`. -/
  | worker_take (s : PoolState) (i : ℕ) (j : ℕ) (rest : List ℕ) :
      s.workers.get? i = some false → s.queue = j :: rest →
      PoolStep s { s with queue := rest, workers := s.workers.set i true }
  /-- Busy worker `i` finishes its job (fulfils the future) and loops. -/
  | worker_done (s : PoolState) (i : ℕ) :
      s.workers.get? i = some true →
      PoolStep s { s with workers := s.workers.set i false }

/-- Reachability from the freshly started pool. -/
def PoolReachable (P : ℕ) (s : PoolState) : Prop :=
  Relation.ReflTransGen PoolStep (poolInit P) s

theorem poolStep_workers_length {s s' : PoolState} (h : PoolStep s s') :
    s'.workers.length = s.workers.length := by
  cases h <;> simp

/-- The number of spawned worker tasks never changes: it is `P` in every
reachable state. -/
theorem poolReachable_workers_length {P : ℕ} {s : PoolState}
    (h : PoolReachable P s) : s.workers.length = P := by
  induction h with
  | refl => simp [poolInit]
  | tail _ hstep ih => rw [poolStep_workers_length hstep, ih]

/-- At most `P` jobs are ever being executed *by workers* simultaneously:
each worker task processes one dequeued job at a time. -/
theorem poolReachable_worker_bound {P : ℕ} {s : PoolState}
    (h : PoolReachable P s) : s.workers.count true ≤ P := by
  calc s.workers.count true ≤ s.workers.length := List.count_le_length _ _
    _ = P := poolReachable_workers_length h

/-- With `n` submitters hitting an empty queue, `n` direct executions run
concurrently — the bypass path is not accounted against any worker slot. -/
theorem poolReachable_direct_unbounded (P : ℕ) :
    ∀ n : ℕ, PoolReachable P { poolInit P with direct := n } := by
  intro n
  induction n with
  | zero => exact Relation.ReflTransGen.refl
  | succ n ih =>
    refine Relation.ReflTransGen.tail ih ?_
    have := PoolStep.submit_direct { poolInit P with direct := n } (by simp [poolInit])
    simpa using this

/-! ## Redis backing store (external service)

The cache classes call Redis `get`/`setex`.  Redis itself is outside the
repository; its documented semantics are modelled here: `setex key ttl value`
stores the value with an expiry, and `get` returns it only before the expiry
(`now - written < ttl`), otherwise the key is gone.  A boolean `fail`
parameter at each call site models the backend raising (connection refused
etc.), which the repository code wraps in `try/except`. -/

/-- One Redis key written with `setex`. -/
structure RedisEntry (V : Type) where
  value : V
  written : ℚ
  ttl : ℚ
deriving DecidableEq, Repr

def redisGet {K V : Type} [DecidableEq K] (r : List (K × RedisEntry V))
    (now : ℚ) (k : K) : Option V :=
  match r.find? (fun e => e.1 = k) with
  | some (_, e) => if now - e.written < e.ttl then some e.value else none
  | none => none

def redisSetex {K V : Type} [DecidableEq K] (r : List (K × RedisEntry V))
    (now : ℚ) (k : K) (ttl : ℚ) (v : V) : List (K × RedisEntry V) :=
  (k, ⟨v, now, ttl⟩) :: r.filter (fun e => ¬(e.1 = k))

/-! ## `SecureCacheManager` (llm/cache.py:11-82)

`get` wraps the whole Redis round-trip and the deserialization in
`try/except` and returns `None` on any failure; `set` computes
`ttl = ttl or self.default_ttl` and drops the write (logging) if the backend
raises. -/

structure SecureCacheManager where
  default_ttl : ℚ
  store : List (String × RedisEntry Str)
deriving DecidableEq, Repr

namespace SecureCacheManager

/-- Method `SecureCacheManager.get` (llm/cache.py:42-55).  `fail` models the Redis
round-trip raising; `deserOk` models whether `self.deserializer(data)`
succeeds on the stored payload. -/
def get (m : SecureCacheManager) (fail : Bool) (deserOk : Bool) (now : ℚ)
    (k : String) : Option Str :=
  if fail then none
  else
    match redisGet m.store now k with
    | none => none
    | some data => if deserOk then some data else none

/-- Method `SecureCacheManager.set` (llm/cache.py:57-64).  `ttl = none` models the
`ttl=None` default; a falsy (zero) ttl also falls back to `default_ttl`
(`ttl = ttl or self.default_ttl`). -/
def set (m : SecureCacheManager) (fail : Bool) (now : ℚ) (k : String)
    (v : Str) (ttl : Option ℚ) : SecureCacheManager :=
  let ttl' := match ttl with
    | none => m.default_ttl
    | some t => if t = 0 then m.default_ttl else t
  if fail then m
  else { m with store := redisSetex m.store now k ttl' v }

/-- Method `SecureCacheManager.get_or_set` (llm/cache.py:66-75) with a supplied
`value_fn` result. -/
def get_or_set (m : SecureCacheManager) (failGet failSet : Bool)
    (deserOk : Bool) (now : ℚ) (k : String) (value : Str) (ttl : Option ℚ) :
    Str × SecureCacheManager :=
  match get m failGet deserOk now k with
  | some cached => (cached, m)
  | none => (value, set m failSet now k value ttl)

end SecureCacheManager

/-! ## `AudioCache` (adapters/elevenlabs_adapter.py:99-157) -/

/-- Cache key of `_get_cache_key` (lines 107-110): a deterministic hash of
`(text, voice_id, json(settings))`, embedded as the triple itself. -/
structure AKey where
  text : String
  voice_id : String
  settings : String
deriving DecidableEq, Repr

structure AudioCache where
  cache_ttl : ℚ
  /-- Field `self.redis`: `none` when no Redis client was configured. -/
  redis : Option (List (AKey × RedisEntry Str))
  /-- Field `self._memory_cache`: key ↦ `(entry_time, audio_data)`. -/
  mem : List (AKey × ℚ × Str)
deriving DecidableEq, Repr

namespace AudioCache

/-- The memory-fallback half of `get` (lines 127-135): a hit younger than
`cache_ttl` is returned; an expired entry is deleted and the lookup misses. -/
def memLookup (c : AudioCache) (now : ℚ) (k : AKey) :
    Option Str × AudioCache :=
  match c.mem.find? (fun e => e.1 = k) with
  | some (_, t, audio) =>
    if now - t < c.cache_ttl then (some audio, c)
    else (none, { c with mem := c.mem.filter (fun e => ¬(e.1 = k)) })
  | none => (none, c)

/-- Method `AudioCache.get` (lines 112-135).  `redisFail` models
`self.redis.get` raising (caught and logged at lines 123-124). -/
def get (c : AudioCache) (redisFail : Bool) (now : ℚ) (k : AKey) :
    Option Str × AudioCache :=
  let cached_data : Option Str :=
    match c.redis with
    | some r => if redisFail then none else redisGet r now k
    | none => none
  match cached_data with
  | some d => if d = [] then c.memLookup now k else (some d, c)
  | none => c.memLookup now k

/-- Delete the oldest memory-cache entry
(`min(keys, key=lambda k: entry_time)`, lines 154-157). -/
def removeOldest (m : List (AKey × ℚ × Str)) : List (AKey × ℚ × Str) :=
  match m.argmin (fun e => e.2.1) with
  | some e => m.erase e
  | none => m

/-- Method `AudioCache.set` (lines 137-157).  The Redis `setex` is attempted first
(`redisFail` models it raising, caught at lines 146-147); the memory cache is
then written for payloads under 1 MB, with the over-50-entries eviction. -/
def set (c : AudioCache) (redisFail : Bool) (now : ℚ) (k : AKey)
    (audio : Str) : AudioCache :=
  let c1 : AudioCache :=
    match c.redis with
    | some r =>
      if redisFail then c
      else { c with redis := some (redisSetex r now k c.cache_ttl audio) }
    | none => c
  if audio.length < 1024 * 1024 then
    let m := (k, now, audio) :: c1.mem.filter (fun e => ¬(e.1 = k))
    { c1 with mem := if 50 < m.length then removeOldest m else m }
  else c1

end AudioCache

/-! Helper lemmas about the retry loop. -/

/-- A transient attempt per §7's taxonomy: HTTP 429, HTTP 5xx, or a timeout
(429 and 5xx always sleep-and-retry in the source; a timeout retries while
`attempt < max_retries - 1`). -/
def isTransient : HttpAttempt → Prop
  | HttpAttempt.response st _ _ => st = 429 ∨ 500 ≤ st
  | HttpAttempt.timeout => True
  | HttpAttempt.clientError => False

/-- A retryable-status attempt (429 or 5xx only). -/
def isRetryStatus : HttpAttempt → Prop
  | HttpAttempt.response st _ _ => st = 429 ∨ 500 ≤ st
  | HttpAttempt.timeout => False
  | HttpAttempt.clientError => False

theorem ttsLoop_transient_then_success (mr : ℕ) (out : ℕ → HttpAttempt)
    (body : Str) :
    ∀ (M a fuel : ℕ), fuel + a = mr → M < fuel →
      (∀ i, i < M → isTransient (out (a + i))) →
      (∃ ra, out (a + M) = HttpAttempt.response 200 ra body) →
      ttsLoop mr out fuel a
        = (Except.ok body, (List.range M).map (fun i => 2 ^ (a + i))) := by
  intro M
  induction M with
  | zero =>
    intro a fuel hmr hM _ hsucc
    obtain ⟨ra, hra⟩ := hsucc
    obtain ⟨f, rfl⟩ : ∃ f, fuel = f + 1 := ⟨fuel - 1, by omega⟩
    simp only [Nat.add_zero] at hra
    simp [ttsLoop, hra]
  | succ M ih =>
    intro a fuel hmr hM htrans hsucc
    obtain ⟨f, rfl⟩ : ∃ f, fuel = f + 1 := ⟨fuel - 1, by omega⟩
    have h0 := htrans 0 (by omega)
    have hrec := ih (a + 1) f (by omega) (by omega)
      (fun i hi => by
        have := htrans (i + 1) (by omega)
        simpa [Nat.add_assoc, Nat.add_comm 1 i] using this)
      (by
        obtain ⟨ra, hra⟩ := hsucc
        exact ⟨ra, by rw [← hra]; congr 1; omega⟩)
    have hwaits : (List.range (M + 1)).map (fun i => 2 ^ (a + i))
        = 2 ^ a :: (List.range M).map (fun i => 2 ^ (a + 1 + i)) := by
      rw [List.range_succ_eq_map]
      simp only [List.map_cons, Nat.add_zero, List.map_map]
      congr 1
      apply List.map_congr_left
      intro i _
      simp only [Function.comp_apply]
      congr 1
      omega
    rw [hwaits]
    simp only [Nat.add_zero] at h0
    cases hout : out a with
    | response st ra b =>
      rw [hout] at h0
      have h0l : st = 429 ∨ 500 ≤ st := h0
      have hne200 : ¬ st = 200 := by
        rcases h0l with h | h
        · omega
        · omega
      simp only [ttsLoop, hout, if_neg hne200, if_pos h0l, hrec]
    | timeout =>
      have hlt : a < mr - 1 := by omega
      simp only [ttsLoop, hout, if_pos hlt, hrec]
    | clientError =>
      rw [hout] at h0
      exact absurd h0 id

theorem ttsLoop_all_retry_status (mr : ℕ) (out : ℕ → HttpAttempt) :
    ∀ (fuel a : ℕ),
      (∀ i, i < fuel → isRetryStatus (out (a + i))) →
      ttsLoop mr out fuel a
        = (Except.error TtsErr.allRetriesFailed,
           (List.range fuel).map (fun i => 2 ^ (a + i))) := by
  intro fuel
  induction fuel with
  | zero =>
    intro a _
    simp [ttsLoop]
  | succ f ih =>
    intro a hall
    have h0 := hall 0 (by omega)
    simp only [Nat.add_zero] at h0
    have hrec := ih (a + 1) (fun i hi => by
      have := hall (i + 1) (by omega)
      simpa [Nat.add_assoc, Nat.add_comm 1 i] using this)
    have hwaits : (List.range (f + 1)).map (fun i => 2 ^ (a + i))
        = 2 ^ a :: (List.range f).map (fun i => 2 ^ (a + 1 + i)) := by
      rw [List.range_succ_eq_map]
      simp only [List.map_cons, Nat.add_zero, List.map_map]
      congr 1
      apply List.map_congr_left
      intro i _
      simp only [Function.comp_apply]
      congr 1
      omega
    rw [hwaits]
    cases hout : out a with
    | response st ra b =>
      rw [hout] at h0
      have h0l : st = 429 ∨ 500 ≤ st := h0
      have hne200 : ¬ st = 200 := by
        rcases h0l with h | h
        · omega
        · omega
      simp only [ttsLoop, hout, if_neg hne200, if_pos h0l, hrec]
    | timeout =>
      rw [hout] at h0
      exact absurd h0 id
    | clientError =>
      rw [hout] at h0
      exact absurd h0 id

/-! ## Claim theorems -/

/-- On every cache miss, whatever the providers would return, `generate` ends
in the total-outage `RuntimeError`, caches nothing, and spawns (then leaks)
the `logic` and `fallback` inner tasks: the Task handle returned by
`_call_provider` is never awaited, so both `sanitize_output` applications
raise `TypeError`. -/
theorem generateMiss_result (env : ProvEnv) (c : Option OrchCache) (k : CKey) :
    generateMiss env c k
      = { result := Except.error PyExn.totalOutage, cache := c
          invoked := ["logic", "fallback"] } := rfl

/-- C1.  The claim says: on a cache miss with a successfully completing
primary provider, `generate` returns that provider's sanitized result tagged
with its identity, and no other result is used or cached.  The code
disagrees: with the `logic` provider succeeding with `"hello"` (and even the
fallback succeeding too), `generate` on a cache miss raises the total-outage
`RuntimeError` and writes nothing to the cache, because `_call_provider`
returns the un-awaited `asyncio.Task` and `sanitize_output` of a Task raises
`TypeError` (swallowed by the `except` clauses). -/
theorem C1_race_winner_code_bug :
    generate ⟨Except.ok ['h', 'e', 'l', 'l', 'o'], Except.ok ['w']⟩
        (some []) "logic" "hi" "ctx0"
      = { result := Except.error PyExn.totalOutage, cache := some []
          invoked := ["logic", "fallback"] } := rfl

/-- C6.  The claim says `generate` raises the total-outage error only when
every primary and the fallback have failed, and that a fallback success after
primary failures is cached and returned.  The code disagrees: with the
primary failing and the fallback succeeding with `"X"`, `generate` still
raises the total-outage `RuntimeError` and caches nothing (the fallback's
result, like the primaries', sits in a never-awaited Task). -/
theorem C6_total_outage_code_bug :
    generate ⟨Except.error PyExn.providerError, Except.ok ['X']⟩
        (some []) "logic" "price" "ctx1"
      = { result := Except.error PyExn.totalOutage, cache := some []
          invoked := ["logic", "fallback"] } := rfl

/-- C7.  Cache idempotence: if a `generate` call succeeds, then a second
`generate` with the same task type, prompt and context — against the cache
state the first call left behind, and whatever the providers would now do —
returns the same cached value and starts no provider call at all.  (In this
code a call can only succeed via a cache hit, which also leaves the cache
unchanged.) -/
theorem C7_cache_idempotence (env env2 : ProvEnv) (cache : Option OrchCache)
    (tt p ctx : String) (v : Str)
    (h : (generate env cache tt p ctx).result = Except.ok v) :
    generate env2 (generate env cache tt p ctx).cache tt p ctx
      = { result := Except.ok v, cache := (generate env cache tt p ctx).cache
          invoked := [] } := by
  match hc : cache with
  | none =>
    rw [show generate env none tt p ctx = generateMiss env none ⟨tt, p, ctx⟩ from rfl,
      generateMiss_result] at h
    exact absurd h (by simp)
  | some c =>
    by_cases htr : truthy (cacheGet c ⟨tt, p, ctx⟩)
    · have h1 : generate env (some c) tt p ctx
          = { result := Except.ok ((cacheGet c ⟨tt, p, ctx⟩).getD []), cache := some c
              invoked := [] } := by
        unfold generate
        simp only [htr, if_true]
      rw [h1] at h ⊢
      simp only at h
      have h2 : generate env2 (some c) tt p ctx
          = { result := Except.ok ((cacheGet c ⟨tt, p, ctx⟩).getD []), cache := some c
              invoked := [] } := by
        unfold generate
        simp only [htr, if_true]
      simp only
      rw [h2]
      simp only [Except.ok.injEq] at h
      rw [h]
    · have h1 : generate env (some c) tt p ctx = generateMiss env (some c) ⟨tt, p, ctx⟩ := by
        unfold generate
        simp [htr]
      rw [h1, generateMiss_result] at h
      exact absurd h (by simp)

/-- Witness for C7: a concrete cache holding `"ok"` under the request's key;
the first call succeeds from the cache, the second returns the same value
with no provider started. -/
theorem C7_cache_idempotence_witness :
    generate ⟨Except.ok ['z'], Except.ok ['z']⟩
        (generate ⟨Except.error PyExn.providerError, Except.error PyExn.providerError⟩
          (some [(⟨"logic", "hi", "c0"⟩, ['o', 'k'])]) "logic" "hi" "c0").cache
        "logic" "hi" "c0"
      = { result := Except.ok ['o', 'k']
          cache := (generate ⟨Except.error PyExn.providerError, Except.error PyExn.providerError⟩
            (some [(⟨"logic", "hi", "c0"⟩, ['o', 'k'])]) "logic" "hi" "c0").cache
          invoked := [] } :=
  C7_cache_idempotence _ _ _ _ _ _ _ rfl

/-- C10.  `sanitize_output` returns the stripped 4096-character prefix of its
input (so: length at most 4096, no leading or trailing whitespace), the empty
string for empty input; and in `generate` a cached empty string is falsy at
`if cached:`, so the request is treated as a miss and provider tasks are
started again. -/
theorem C10_sanitize_and_empty_cache (s : Str) (cache : OrchCache)
    (env : ProvEnv) (tt p ctx : String)
    (hc : cacheGet cache ⟨tt, p, ctx⟩ = some []) :
    sanitize_output s = pyStrip (s.take 4096)
    ∧ (sanitize_output s).length ≤ 4096
    ∧ (∀ c, (sanitize_output s).head? = some c → pyIsSpace c = false)
    ∧ (∀ c, (sanitize_output s).getLast? = some c → pyIsSpace c = false)
    ∧ sanitize_output [] = []
    ∧ generate env (some cache) tt p ctx = generateMiss env (some cache) ⟨tt, p, ctx⟩
    ∧ (generate env (some cache) tt p ctx).invoked ≠ [] := by
  have h1 : sanitize_output s = pyStrip (s.take 4096) := by
    by_cases hs : s = []
    · subst hs
      rfl
    · unfold sanitize_output
      rw [if_neg hs]
  have hmiss : generate env (some cache) tt p ctx
      = generateMiss env (some cache) ⟨tt, p, ctx⟩ := by
    unfold generate
    simp [hc, truthy]
  refine ⟨h1, ?_, ?_, ?_, rfl, hmiss, ?_⟩
  · rw [h1]
    calc (pyStrip (s.take 4096)).length
        ≤ (s.take 4096).length := pyStrip_length_le _
      _ ≤ 4096 := by
          rw [List.length_take]
          exact min_le_left _ _
  · intro c hcc
    rw [h1] at hcc
    exact pyStrip_head _ _ hcc
  · intro c hcc
    rw [h1] at hcc
    exact pyStrip_last _ _ hcc
  · rw [hmiss, generateMiss_result]
    simp

/-- Witness for C10 at the input `" a "` and a cache holding the empty
string under the request's key. -/
theorem C10_sanitize_and_empty_cache_witness :
    sanitize_output [' ', 'a', ' '] = pyStrip (([' ', 'a', ' '] : Str).take 4096)
    ∧ (sanitize_output [' ', 'a', ' ']).length ≤ 4096
    ∧ (∀ c, (sanitize_output [' ', 'a', ' ']).head? = some c → pyIsSpace c = false)
    ∧ (∀ c, (sanitize_output [' ', 'a', ' ']).getLast? = some c → pyIsSpace c = false)
    ∧ sanitize_output [] = []
    ∧ generate ⟨Except.ok ['y'], Except.ok ['y']⟩ (some [(⟨"t", "p", "c"⟩, [])]) "t" "p" "c"
        = generateMiss ⟨Except.ok ['y'], Except.ok ['y']⟩
            (some [(⟨"t", "p", "c"⟩, [])]) ⟨"t", "p", "c"⟩
    ∧ (generate ⟨Except.ok ['y'], Except.ok ['y']⟩
        (some [(⟨"t", "p", "c"⟩, [])]) "t" "p" "c").invoked ≠ [] :=
  C10_sanitize_and_empty_cache [' ', 'a', ' '] [(⟨"t", "p", "c"⟩, [])]
    ⟨Except.ok ['y'], Except.ok ['y']⟩ "t" "p" "c" rfl

/-- C4.  The circuit breaker contract: starting from a fresh breaker with
threshold `N`, (i) after `N` consecutive failures of the wrapped operation,
a call made while `now - last_failure < reset_timeout` raises the
circuit-open error and does not execute the operation; (ii) after fewer than
`N` consecutive failures, `call` executes the operation and propagates its
outcome. -/
theorem C4_circuit_breaker (N : ℕ) (rt : ℚ) (ts : List ℚ)
    (t : ℚ) (op : Except Unit Str) :
    (∀ h : ts ≠ [], ts.length = N → t - ts.getLast h < rt →
      (AsyncCircuitBreaker.runFailures (α := Str)
          (AsyncCircuitBreaker.mk0 N rt) () ts).call t op
        = (CBOutcome.circuitOpen,
           AsyncCircuitBreaker.runFailures (α := Str)
             (AsyncCircuitBreaker.mk0 N rt) () ts, false))
    ∧ (ts.length < N →
      ((AsyncCircuitBreaker.runFailures (α := Str)
          (AsyncCircuitBreaker.mk0 N rt) () ts).call t op).2.2 = true
      ∧ ((AsyncCircuitBreaker.runFailures (α := Str)
          (AsyncCircuitBreaker.mk0 N rt) () ts).call t op).1
        = (match op with
           | Except.ok a => CBOutcome.ok a
           | Except.error e => CBOutcome.opError e)) := by
  constructor
  · intro hne hlen ht
    obtain ⟨_, hrt, _, hlast, hopen⟩ := runFailures_spec (α := Str) () ts
      (AsyncCircuitBreaker.mk0 N rt) rfl (by simp [AsyncCircuitBreaker.mk0, hlen])
    have hopen' : (AsyncCircuitBreaker.runFailures (α := Str)
        (AsyncCircuitBreaker.mk0 N rt) () ts).is_open = true := by
      rw [hopen]
      simp [AsyncCircuitBreaker.mk0, hlen, hne]
    unfold AsyncCircuitBreaker.call
    rw [if_pos]
    rw [hopen', hlast hne, hrt]
    exact ⟨rfl, ht⟩
  · intro hlen
    obtain ⟨_, _, _, _, hopen⟩ := runFailures_spec (α := Str) () ts
      (AsyncCircuitBreaker.mk0 N rt) rfl
      (by simp [AsyncCircuitBreaker.mk0]; omega)
    have hopen' : (AsyncCircuitBreaker.runFailures (α := Str)
        (AsyncCircuitBreaker.mk0 N rt) () ts).is_open = false := by
      rw [hopen]
      simp [AsyncCircuitBreaker.mk0]
      intro hlen2
      omega
    unfold AsyncCircuitBreaker.call
    rw [if_neg (by rw [hopen']; simp)]
    cases op with
    | ok a => exact ⟨rfl, rfl⟩
    | error e => exact ⟨rfl, rfl⟩

/-- Witness for C4: threshold 2, reset timeout 30.  After failures at times
1 and 2, a call at time 3 is rejected open-circuit; after a single failure,
a call still executes and returns the operation's value. -/
theorem C4_circuit_breaker_witness :
    ((AsyncCircuitBreaker.runFailures (α := Str)
        (AsyncCircuitBreaker.mk0 2 30) () [1, 2]).call 3
          (Except.ok ['a'] : Except Unit Str)).1
      = CBOutcome.circuitOpen
    ∧ ((AsyncCircuitBreaker.runFailures (α := Str)
        (AsyncCircuitBreaker.mk0 2 30) () [1]).call 3
          (Except.ok ['a'] : Except Unit Str)).2.2 = true
    ∧ ((AsyncCircuitBreaker.runFailures (α := Str)
        (AsyncCircuitBreaker.mk0 2 30) () [1]).call 3
          (Except.ok ['a'] : Except Unit Str)).1
      = CBOutcome.ok ['a'] := by
  refine ⟨?_, ?_, ?_⟩
  · have h := ((C4_circuit_breaker 2 30 [1, 2] 3
      (Except.ok ['a'])).1) (by simp) (by simp) (by norm_num [List.getLast])
    rw [h]
  · exact ((C4_circuit_breaker 2 30 [1] 3
      (Except.ok ['a'])).2 (by simp)).1
  · exact ((C4_circuit_breaker 2 30 [1] 3
      (Except.ok ['a'])).2 (by simp)).2

/-- C5, counterexample to the claim as stated.  Capacity `C = 1`, refill
rate `r = 3/4`.  From a fresh bucket at wall-clock time `0`: the first call
is admitted, the second (the `C+1`-th) raises `RateLimitExceeded` — but a
further call made after waiting exactly `1/r = 4/3` seconds is *also*
rejected: `now = int(time.time())` truncates the call times to seconds
`0` and `1`, so `elapsed = 1` and `tokens_to_add = int(1 × 3/4) = 0`. -/
theorem C5_wait_one_over_r_counterexample :
    (TokenBucketRateLimiter.check 1 (3/4) none (pyInt 0)).1 = true
    ∧ (TokenBucketRateLimiter.check 1 (3/4)
        (some (TokenBucketRateLimiter.check 1 (3/4) none (pyInt 0)).2)
        (pyInt 0)).1 = false
    ∧ (TokenBucketRateLimiter.check 1 (3/4)
        (some (TokenBucketRateLimiter.check 1 (3/4)
          (some (TokenBucketRateLimiter.check 1 (3/4) none (pyInt 0)).2)
          (pyInt 0)).2)
        (pyInt (0 + 4/3))).1 = false := by
  have h0 : pyInt 0 = 0 := by norm_num [pyInt]
  have h1 : pyInt (4/3) = 1 := by norm_num [pyInt]
  have hc1 : TokenBucketRateLimiter.check 1 (3/4) none (pyInt 0)
      = (true, ⟨0, 0⟩) := by
    rw [h0, TokenBucketRateLimiter.check_fresh]
    norm_num
  have hc2 : TokenBucketRateLimiter.check 1 (3/4) (some ⟨0, 0⟩) (pyInt 0)
      = (false, ⟨0, 0⟩) := by
    rw [h0, TokenBucketRateLimiter.check_same_second]
    norm_num
  have hc3 : TokenBucketRateLimiter.check 1 (3/4) (some ⟨0, 0⟩)
      (pyInt (4/3)) = (false, ⟨0, 0⟩) := by
    rw [h1]
    unfold TokenBucketRateLimiter.check
    norm_num [pyInt]
  simp [hc1, hc2, hc3]

/-- C5 (amended).  For a fresh bucket of capacity `C ≥ 1`, with every call in
the same wall-clock second `n0`: the first `C` calls are admitted (ending
with `0` tokens), the `(C+1)`-th raises `RateLimitExceeded`; and whenever
`1/r` is a whole number of seconds `k` (`r·k = 1`), one further call at
second `n0 + k` is admitted again. -/
theorem C5_token_bucket_amended (C : ℕ) (hC : 1 ≤ C) (k : ℕ)
    (r : ℚ) (hr : r * k = 1) (n0 : ℤ) :
    TokenBucketRateLimiter.checkRun C r none n0 C = (some ⟨0, n0⟩, true)
    ∧ TokenBucketRateLimiter.check C r (some ⟨0, n0⟩) n0 = (false, ⟨0, n0⟩)
    ∧ (TokenBucketRateLimiter.check C r (some ⟨0, n0⟩) (n0 + k)).1 = true := by
  refine ⟨?_, ?_, ?_⟩
  · have h := TokenBucketRateLimiter.checkRun_fresh C r n0 C hC le_rfl
    simpa using h
  · rw [TokenBucketRateLimiter.check_same_second]
    norm_num
  · have h1 : ((n0 + (k : ℤ) - n0 : ℤ) : ℚ) * r = 1 := by
      push_cast
      ring_nf
      linear_combination hr
    have h2 : pyInt (((n0 + (k : ℤ) - n0 : ℤ) : ℚ) * r) = 1 := by
      rw [h1]
      norm_num [pyInt]
    have hmin : min ((0 : ℤ) + 1) (C : ℤ) = 1 :=
      min_eq_left (by exact_mod_cast hC)
    unfold TokenBucketRateLimiter.check
    simp only [Option.map_some', Option.getD_some, h2]
    norm_num [hmin]
    simp [show 0 < C by omega]

/-- Witness for C5 (amended): capacity 2, rate 1/2 (so `1/r = 2` whole
seconds), starting second 5. -/
theorem C5_token_bucket_amended_witness :
    TokenBucketRateLimiter.checkRun 2 (1/2) none 5 2 = (some ⟨0, 5⟩, true)
    ∧ TokenBucketRateLimiter.check 2 (1/2) (some ⟨0, 5⟩) 5 = (false, ⟨0, 5⟩)
    ∧ (TokenBucketRateLimiter.check 2 (1/2) (some ⟨0, 5⟩) (5 + (2 : ℕ))).1 = true :=
  C5_token_bucket_amended 2 (by norm_num) 2 (1/2) (by norm_num) 5

/-- C3, counterexample to the claim as stated.  The claim asserts that
`Retry-After`-style hints are honored for 429 responses; the retry loop never
reads them.  With `max_retries = 3` and every attempt answered `429` carrying
a 30-second `Retry-After` hint, the loop sleeps `[1, 2, 4]` seconds
(`2 ** attempt`, first sleep 1 < 30) — exactly the same sleeps as when the
server sends no hint at all — then fails. -/
theorem C3_retry_after_ignored_counterexample :
    process_tts_request 3 (fun _ => HttpAttempt.response 429 (some 30) [])
      = (Except.error TtsErr.allRetriesFailed, [1, 2, 4])
    ∧ (process_tts_request 3 (fun _ => HttpAttempt.response 429 (some 30) [])).2
      = (process_tts_request 3 (fun _ => HttpAttempt.response 429 none [])).2 := by
  constructor
  · rfl
  · rfl

/-- C3 (amended).  In `_process_tts_request`, with attempt outcomes `out` and
attempt limit `mr`: (i) a run of transient attempts (429, 5xx or timeout)
followed by a 200 on attempt `M < mr` returns the body, sleeping exactly
`2 ** attempt` seconds after each failed attempt (`Retry-After` hints are not
consulted); (ii) any other-4xx (or any non-200, non-429, sub-500) status on
the first attempt raises immediately with no retry and no sleep; (iii) if
every attempt up to the limit yields 429/5xx, the loop exhausts `mr` attempts
and raises the all-retries-failed error. -/
theorem C3_retry_backoff_amended (mr : ℕ) (out : ℕ → HttpAttempt)
    (body : Str) (M : ℕ) (st : ℕ) (ra : Option ℕ) (b : Str) :
    (M < mr → (∀ i, i < M → isTransient (out i)) →
      (∃ hint, out M = HttpAttempt.response 200 hint body) →
      process_tts_request mr out
        = (Except.ok body, (List.range M).map (fun i => 2 ^ i)))
    ∧ (0 < mr → out 0 = HttpAttempt.response st ra b →
      ¬ st = 200 → ¬ (st = 429 ∨ 500 ≤ st) →
      process_tts_request mr out = (Except.error (TtsErr.apiError st), []))
    ∧ ((∀ i, i < mr → isRetryStatus (out i)) →
      process_tts_request mr out
        = (Except.error TtsErr.allRetriesFailed,
           (List.range mr).map (fun i => 2 ^ i))) := by
  refine ⟨?_, ?_, ?_⟩
  · intro hM htrans hsucc
    have h := ttsLoop_transient_then_success mr out body M 0 mr (by omega) hM
      (by simpa using htrans) (by simpa using hsucc)
    simpa [process_tts_request] using h
  · intro hmr hout h200 hretry
    obtain ⟨f, hf⟩ : ∃ f, mr = f + 1 := ⟨mr - 1, by omega⟩
    subst hf
    unfold process_tts_request
    simp only [ttsLoop, hout, if_neg h200, if_neg hretry]
  · intro hall
    have h := ttsLoop_all_retry_status mr out mr 0 (by simpa using hall)
    simpa [process_tts_request] using h

/-- Witness for C3 (amended), with `max_retries = 3`: a 503 then a 200
returns the success body after one 1-second sleep; a 404 fails immediately
with no sleep; three straight 429s exhaust the loop sleeping 1, 2 and 4
seconds. -/
theorem C3_retry_backoff_amended_witness :
    process_tts_request 3
        (fun a => if a = 0 then HttpAttempt.response 503 none []
                  else HttpAttempt.response 200 none ['o', 'k'])
      = (Except.ok ['o', 'k'], [1])
    ∧ process_tts_request 3 (fun _ => HttpAttempt.response 404 none [])
      = (Except.error (TtsErr.apiError 404), [])
    ∧ process_tts_request 3 (fun _ => HttpAttempt.response 429 none [])
      = (Except.error TtsErr.allRetriesFailed, [1, 2, 4]) := by
  refine ⟨?_, ?_, ?_⟩
  · have h := (C3_retry_backoff_amended 3
      (fun a => if a = 0 then HttpAttempt.response 503 none []
                else HttpAttempt.response 200 none ['o', 'k'])
      ['o', 'k'] 1 0 none []).1 (by omega)
      (by
        intro i hi
        have : i = 0 := by omega
        subst this
        simp [isTransient])
      ⟨none, by simp⟩
    simpa using h
  · exact (C3_retry_backoff_amended 3 (fun _ => HttpAttempt.response 404 none [])
      [] 0 404 none []).2.1 (by omega) rfl (by omega) (by omega)
  · have h := (C3_retry_backoff_amended 3 (fun _ => HttpAttempt.response 429 none [])
      [] 0 429 none []).2.2
      (by
        intro i _
        exact Or.inl rfl)
    simpa using h

/-- C2, counterexample to the claim as stated.  Pool size `P = 1`, freshly
started (queue empty, worker idle).  Two callers each hit line 328 while the
queue is empty, so both take the direct-execution branch: a state with two
jobs executing concurrently is reachable, exceeding the bound `P = 1`.  The
bypass acquires no worker slot, so it does not count against `P`. -/
theorem C2_bypass_breaks_bound_counterexample :
    PoolReachable 1
      { is_running := true, queue := [], workers := [false], direct := 2 }
    ∧ PoolState.executing
        { is_running := true, queue := [], workers := [false], direct := 2 } = 2 := by
  constructor
  · have h := poolReachable_direct_unbounded 1 2
    simpa [poolInit] using h
  · rfl

/-- C2 (amended).  In every reachable state of the pool, at most `P` jobs are
being executed *by the worker tasks* (each of the `P` workers holds at most
one dequeued job); jobs taken through the direct-execution bypass of
`synthesize_speech` run in the submitting caller's task, occupy no worker
slot, and arbitrarily many of them can be in flight at once. -/
theorem C2_worker_concurrency_amended (P : ℕ) (s : PoolState)
    (h : PoolReachable P s) :
    s.workers.count true ≤ P
    ∧ ∀ n : ℕ, PoolReachable P { poolInit P with direct := n } :=
  ⟨poolReachable_worker_bound h, poolReachable_direct_unbounded P⟩

/-- Witness for C2 (amended) at `P = 1`, the freshly started pool, and three
concurrent bypass executions. -/
theorem C2_worker_concurrency_amended_witness :
    (poolInit 1).workers.count true ≤ 1
    ∧ PoolReachable 1 { poolInit 1 with direct := 3 } :=
  ⟨(C2_worker_concurrency_amended 1 (poolInit 1) Relation.ReflTransGen.refl).1,
   (C2_worker_concurrency_amended 1 (poolInit 1) Relation.ReflTransGen.refl).2 3⟩

/-- C8.  Backing-store failures never propagate out of the cache operations:
`SecureCacheManager.get` under a failing backend returns `None` (a miss) and
`set` drops the write leaving the store unchanged; `get_or_set` hands the
computed value back to the caller whether or not the write failed; a failing
Redis read in `AudioCache.get` behaves exactly like a Redis miss (falling
back to the in-process store), and a failing Redis write in `AudioCache.set`
is dropped.  All four operations are total — no error value escapes. -/
theorem C8_cache_backend_failure_absorbed
    (m : SecureCacheManager) (dOk fG fS : Bool) (now : ℚ) (k : String)
    (v val : Str) (ttl : Option ℚ)
    (c : AudioCache) (now2 : ℚ) (ak : AKey) (audio : Str) :
    SecureCacheManager.get m true dOk now k = none
    ∧ SecureCacheManager.set m true now k v ttl = m
    ∧ (SecureCacheManager.get_or_set m fG fS dOk now k val ttl).1
        = (SecureCacheManager.get_or_set m fG false dOk now k val ttl).1
    ∧ AudioCache.get c true now2 ak = c.memLookup now2 ak
    ∧ (AudioCache.set c true now2 ak audio).redis = c.redis := by
  refine ⟨rfl, rfl, ?_, ?_, ?_⟩
  · cases h : SecureCacheManager.get m fG dOk now k <;>
      simp [SecureCacheManager.get_or_set, h]
  · cases hred : c.redis <;> simp [AudioCache.get, hred]
  · unfold AudioCache.set
    cases hred : c.redis <;> simp [hred] <;> split <;> first | rfl | exact hred

/-- C9.  An expired entry is never returned: the `AudioCache` memory path
refuses (and deletes) an entry once `now - entry_time` is not below
`cache_ttl`; a Redis key written with `setex` is gone once `now - written`
exceeds its TTL, so both `AudioCache`'s Redis path and
`SecureCacheManager.get` miss on it.  (The orchestrator's in-module
`RedisCache` stub stores entries with no TTL at all, so no entry of it
carries a `created_at`/TTL pair for this claim to constrain.) -/
theorem C9_expired_entry_never_returned
    (c : AudioCache) (now t : ℚ) (k : AKey) (v : Str)
    (hmem : c.mem.find? (fun e => e.1 = k) = some (k, t, v))
    (hexp : c.cache_ttl < now - t)
    (r : List (String × RedisEntry Str)) (k2 : String) (e : RedisEntry Str)
    (hfind : r.find? (fun x => x.1 = k2) = some (k2, e))
    (hexp2 : e.ttl < now - e.written)
    (dttl : ℚ) (fail dOk : Bool) :
    (c.memLookup now k).1 = none
    ∧ redisGet r now k2 = none
    ∧ SecureCacheManager.get ⟨dttl, r⟩ fail dOk now k2 = none := by
  have h2 : redisGet r now k2 = none := by
    unfold redisGet
    rw [hfind]
    exact if_neg (by linarith)
  refine ⟨?_, h2, ?_⟩
  · have hlt : ¬ (now - t < c.cache_ttl) := by linarith
    unfold AudioCache.memLookup
    rw [hmem]
    simp [hlt]
  · cases fail with
    | true => rfl
    | false =>
      unfold SecureCacheManager.get
      simp [h2]

/-- Witness for C9: a memory entry written at time 0 with TTL 10 read at
time 11, and a Redis key written at 0 with TTL 5 read at 11. -/
theorem C9_expired_entry_never_returned_witness :
    ((⟨10, none, [(⟨"t", "v", "s"⟩, 0, ['x'])]⟩ : AudioCache).memLookup 11
        ⟨"t", "v", "s"⟩).1 = none
    ∧ redisGet [("k", (⟨['y'], 0, 5⟩ : RedisEntry Str))] 11 "k" = none
    ∧ SecureCacheManager.get ⟨3600, [("k", ⟨['y'], 0, 5⟩)]⟩ false true 11 "k"
        = none :=
  C9_expired_entry_never_returned
    ⟨10, none, [(⟨"t", "v", "s"⟩, 0, ['x'])]⟩ 11 0 ⟨"t", "v", "s"⟩ ['x']
    rfl (by norm_num)
    [("k", ⟨['y'], 0, 5⟩)] "k" ⟨['y'], 0, 5⟩ rfl (by norm_num)
    3600 false true
